import Mathlib

/-!
# Verification of the nabs suspend/resume preprocessors

Shallow embedding of the concurrency core of the nabs repository:

* `SuspendPreprocessor` (src/nabs/preprocessors.py, lines 13-135): a plan
  preprocessor that intercepts watched instructions while a suspension is
  unresolved, modelled by `spMsgProc` / `spRun` over an explicit state.
* `BeamSuspender.averages` (src/nabs/preprocessors.py, lines 161-178): the
  property whose getter has an extra required parameter, modelled with a
  small Python-call-arity semantics.
* `DropWrapper` (src/nabs/preprocessors.py, lines 181-239): the bundle
  quality gate, modelled by `dwMsgStep` / `dwRun` with explicit Python
  value and error semantics (`PyVal`, `PyErr`).
* `EnsureGoodReads` (src/nabs/good_data.py): the drop-and-retry
  specialization, modelled by `egMsgProc` / `runEGFuel` with a fuel bound
  on the nesting depth of retries.
* `CallbackCounterFuture` (src/nabs/callbacks.py): the threshold rendezvous
  counter, modelled by `ccfCall`.
* The notification-thread / hold-down-worker concurrency of
  `SuspendPreprocessor._update` and `_release_thread`
  (src/nabs/preprocessors.py, lines 66-100), modelled as an interleaving
  semantics `cwStep` / `cwRun` over atomic actions.

The stream-mutation utility (bluesky plan_mutator) is an external
collaborator of the repository; it is modelled from its documented
contract: a per-instruction decision function either passes an instruction
through or substitutes a replacement sub-stream, with all non-substituted
order preserved.
-/

/-- One plan message: an identity tag (so that re-emission of the very same
instruction is visible) and its command string. -/
structure Msg where
  mid : Nat
  command : String
deriving DecidableEq, Repr

/-- Python exception kinds that the embedded code can raise. -/
inductive PyErr
  | typeError
  | keyError
deriving DecidableEq, Repr

/-! ## Python values and primitive operations for `DropWrapper`

`DropWrapper.filters` maps read keys to what its docstring calls an
"is_bad_value(value)" function; buffered read values are numbers, booleans
or None. None of these Python types supports subscription, so subscripting
any of them raises TypeError. -/

/-- Python values occurring in `DropWrapper` bundles and filters. Numbers
are modelled as integers (times in tenths of a second), which the claims
need and which keeps every operation kernel-computable. -/
inductive PyVal
  | vnone
  | vbool (b : Bool)
  | vnum (q : Int)
  | vfun (f : Int → Bool)

/-- Python truthiness for the values above. -/
def pyTruthy : PyVal → Bool
  | PyVal.vnone => false
  | PyVal.vbool b => b
  | PyVal.vnum q => if q = 0 then false else true
  | PyVal.vfun _ => true

/-- Python subscription `a[b]`. Functions, numbers, booleans and None are
not subscriptable, so on this value universe the operation always raises
TypeError, exactly as CPython does. -/
def pySubscript : PyVal → PyVal → Except PyErr PyVal
  | _, _ => Except.error PyErr.typeError

/-- Python call `f(v)` of a one-argument function value; calling a
non-callable raises TypeError. -/
def pyCallOne : PyVal → Int → Except PyErr Bool
  | PyVal.vfun f, q => Except.ok (f q)
  | _, _ => Except.error PyErr.typeError

/-- Python subtraction on possibly-None operands: `None - None` (and any
subtraction involving None) raises TypeError. -/
def pySub : Option Int → Option Int → Except PyErr Int
  | some a, some b => Except.ok (a - b)
  | _, _ => Except.error PyErr.typeError

/-- The terminal instruction issued for a bundle by `DropWrapper`. -/
inductive Terminal
  | tsave
  | tdrop
deriving DecidableEq, Repr

/-! ## DropWrapper (src/nabs/preprocessors.py, lines 181-239) -/

/-- The mutable state of `DropWrapper`: the constructor arguments
(`filters`, `max_dt`) plus the per-bundle fields set by a `create` message
(`ret`, `first_read_time`, `last_read_time`). The per-bundle fields exist
only after the first `create`; runs modelled here always open with one. -/
structure DWState where
  filters : Option (List (String × PyVal))
  maxDt : Option Int
  ret : List (String × PyVal)
  firstReadTime : Option Int
  lastReadTime : Option Int

/-- `DropWrapper.__init__` (lines 196-198). -/
def dwInit (filters : Option (List (String × PyVal))) (maxDt : Option Int) : DWState :=
  { filters := filters, maxDt := maxDt, ret := [],
    firstReadTime := none, lastReadTime := none }

/-- `self.ret.update(ret)` for a dict modelled as an association list:
keys present in the new data override the old binding. -/
def dwUpdateRet (ret data : List (String × PyVal)) : List (String × PyVal) :=
  ret.filter (fun e => (data.lookup e.1).isNone) ++ data

/-- The key-filter loop of `DropWrapper._filter_save` (lines 228-238):
for each configured key, look the key up in the buffered readings
(a missing key becomes None), skip None values, and otherwise evaluate
`filt[value]` — a subscription, exactly as line 235 is written — dropping
the bundle when the result is truthy. -/
def dwFilterLoop : List (String × PyVal) → List (String × PyVal) → Except PyErr Terminal
  | [], _ => Except.ok Terminal.tsave
  | (key, filt) :: restF, ret =>
    let value := (ret.lookup key).getD PyVal.vnone
    match value with
    | PyVal.vnone => dwFilterLoop restF ret
    | PyVal.vnum q =>
      match pySubscript filt (PyVal.vnum q) with
      | Except.error e => Except.error e
      | Except.ok r => if pyTruthy r then Except.ok Terminal.tdrop else dwFilterLoop restF ret
    | PyVal.vbool b =>
      match pySubscript filt (PyVal.vbool b) with
      | Except.error e => Except.error e
      | Except.ok r => if pyTruthy r then Except.ok Terminal.tdrop else dwFilterLoop restF ret
    | PyVal.vfun f =>
      match pySubscript filt (PyVal.vfun f) with
      | Except.error e => Except.error e
      | Except.ok r => if pyTruthy r then Except.ok Terminal.tdrop else dwFilterLoop restF ret

/-- `DropWrapper._filter_save` (lines 222-239): compute
`dt = last_read_time - first_read_time` unconditionally, drop when a
configured `max_dt` is exceeded, otherwise run the key filters, and save
when nothing objects. -/
def dwFilterSave (s : DWState) : Except PyErr Terminal :=
  match pySub s.lastReadTime s.firstReadTime with
  | Except.error e => Except.error e
  | Except.ok dt =>
    if (match s.maxDt with | some md => decide (md < dt) | none => false) then
      Except.ok Terminal.tdrop
    else
      match s.filters with
      | none => Except.ok Terminal.tsave
      | some fs => dwFilterLoop fs s.ret

/-- Messages seen by `DropWrapper._msg_proc`. A `read` carries the data the
read returns and the wall-clock times observed before and after it. -/
inductive DWMsg
  | create
  | read (data : List (String × PyVal)) (t1 t2 : Int)
  | save
  | other (command : String)

/-- `DropWrapper._msg_proc` with `_cache_read` inlined (lines 203-220):
`create` resets the bundle state, `read` records the first/last read time
and merges the returned data, `save` runs the filter and yields a terminal
instruction, everything else passes. -/
def dwMsgStep (s : DWState) : DWMsg → Except PyErr (List Terminal × DWState)
  | DWMsg.create =>
    Except.ok ([], { s with ret := [], firstReadTime := none, lastReadTime := none })
  | DWMsg.read data t1 t2 =>
    Except.ok ([],
      { s with
        firstReadTime := if s.firstReadTime.isNone then some t1 else s.firstReadTime,
        ret := dwUpdateRet s.ret data,
        lastReadTime := some t2 })
  | DWMsg.save =>
    match dwFilterSave s with
    | Except.error e => Except.error e
    | Except.ok t => Except.ok ([t], s)
  | DWMsg.other _ => Except.ok ([], s)

/-- Run `DropWrapper` over a message list, collecting the terminal
instruction issued for each bundle; an uncaught exception aborts the run. -/
def dwRun (s : DWState) : List DWMsg → Except PyErr (List Terminal)
  | [] => Except.ok []
  | m :: rest =>
    match dwMsgStep s m with
    | Except.error e => Except.error e
    | Except.ok (ts, s1) =>
      match dwRun s1 rest with
      | Except.error e => Except.error e
      | Except.ok ts2 => Except.ok (ts ++ ts2)

/-! ## BeamSuspender.averages (src/nabs/preprocessors.py, lines 161-178)

A tiny model of the Python calling convention for properties: reading a
property calls its getter with exactly the instance; assigning calls its
setter with the instance and the value; a call whose positional argument
count differs from the required parameter count raises TypeError. -/

/-- A Python function, reduced to its required positional parameter count. -/
structure PyFunc where
  requiredParams : Nat
deriving DecidableEq, Repr

/-- Calling a `PyFunc` with a number of positional arguments. -/
def pyCallCheck (f : PyFunc) (argsProvided : Nat) : Except PyErr Unit :=
  if argsProvided = f.requiredParams then Except.ok () else Except.error PyErr.typeError

/-- The `BeamSuspender.averages` property getter (lines 172-174): declared
as a method of two required parameters, self and avg. -/
def beamSuspenderAveragesGetter : PyFunc := { requiredParams := 2 }

/-- The `BeamSuspender.averages` property setter (lines 176-178): self and
avg. -/
def beamSuspenderAveragesSetter : PyFunc := { requiredParams := 2 }

/-- Reading a property invokes the getter with one argument, the instance. -/
def propertyRead (getter : PyFunc) : Except PyErr Unit := pyCallCheck getter 1

/-- Assigning a property invokes the setter with two arguments, the
instance and the assigned value. -/
def propertyWrite (setter : PyFunc) : Except PyErr Unit := pyCallCheck setter 2

/-- The assignment `self.averages = avg` performed by
`BeamSuspender.__init__` (line 164), which goes through the setter. -/
def beamSuspenderInitAveragesAssign : Except PyErr Unit :=
  propertyWrite beamSuspenderAveragesSetter

/-- Reading the public `averages` attribute of a `BeamSuspender`. -/
def beamSuspenderReadAverages : Except PyErr Unit :=
  propertyRead beamSuspenderAveragesGetter

/-! ## EnsureGoodReads (src/nabs/good_data.py)

The drop-and-retry specialization. `msg_proc` (lines 53-60) clears the
message cache on a `save`, appends every trigger/create/read message to the
cache and, when the ok signal currently reads false, substitutes the
`wait_and_retry` sub-stream (lines 62-74): best-effort drop, block on the
Rendezvous Cell, then replay a copy of the cache through `plan_mutator`
with the same `msg_proc`, after clearing the cache.

The ok signal is modelled as a schedule `okSeq`: each `ok_sig.get()` call
consumes the head (an exhausted schedule reads as ok). The fuel argument
of `runEGFuel` bounds the retry nesting depth; an exhausted fuel yields
`none`, so every `some` result is a faithfully completed run. -/

/-- The commands `EnsureGoodReads` buffers and gates. -/
def tcrCommands : List String := ["trigger", "create", "read"]

/-- The state of `EnsureGoodReads` visible to stream processing: the replay
cache and the schedule of future `ok_sig.get()` readings. -/
structure EGState where
  msgCache : List Msg
  okSeq : List Bool
deriving DecidableEq, Repr

/-- One `ok_sig.get()` call against the schedule. -/
def egGetOk (s : EGState) : Bool × EGState :=
  (s.okSeq.headD true, { s with okSeq := s.okSeq.tail })

/-- The decision `msg_proc` returns for one message. -/
inductive EGDecision
  | pass
  | substitute
deriving DecidableEq, Repr

/-- `EnsureGoodReads.msg_proc` (lines 53-60): `save` clears the cache and
passes; trigger/create/read are appended to the cache and trigger the
`wait_and_retry` substitution when the ok signal reads false; every other
command passes with the state untouched. Note that a `drop` command takes
the final branch: it does not clear the cache. -/
def egMsgProc (s : EGState) (m : Msg) : EGDecision × EGState :=
  if m.command = "save" then
    (EGDecision.pass, { s with msgCache := [] })
  else if m.command ∈ tcrCommands then
    let s1 : EGState := { s with msgCache := s.msgCache ++ [m] }
    let p := egGetOk s1
    if p.1 then (EGDecision.pass, p.2) else (EGDecision.substitute, p.2)
  else (EGDecision.pass, s)

/-- The `drop` message emitted by `wait_and_retry` (line 64). -/
def egDropMsg : Msg := { mid := 0, command := "drop" }

/-- The `wait_for` message emitted by `wait_and_retry` (line 68). -/
def egWaitMsg : Msg := { mid := 0, command := "wait_for" }

/-- One pass of the stream-mutation utility over a message list with
`egMsgProc` as the decision function, parametric in the interpretation
`nested` of a nested `plan_mutator` call: a passed message is emitted as
is; a substituted message is replaced by the `wait_and_retry` sub-stream,
which emits `drop`, blocks (`wait_for`), then replays a copy of the cache
through `nested` after clearing the cache (lines 62-74). -/
def runEGList (nested : EGState → List Msg → Option (List Msg × EGState)) :
    EGState → List Msg → Option (List Msg × EGState)
  | s, [] => some ([], s)
  | s, m :: rest =>
    match egMsgProc s m with
    | (EGDecision.pass, s1) =>
      match runEGList nested s1 rest with
      | none => none
      | some (out, s2) => some (m :: out, s2)
    | (EGDecision.substitute, s1) =>
      match nested { s1 with msgCache := [] } s1.msgCache with
      | none => none
      | some (replayOut, s3) =>
        match runEGList nested s3 rest with
        | none => none
        | some (out, s4) =>
          some (egDropMsg :: egWaitMsg :: (replayOut ++ out), s4)

/-- The full `EnsureGoodReads` run: `fuel` bounds how deeply retries may
nest (each substitution replays the cache one level deeper). -/
def runEGFuel : Nat → EGState → List Msg → Option (List Msg × EGState)
  | 0, s, msgs => runEGList (fun _ _ => none) s msgs
  | fuel + 1, s, msgs => runEGList (runEGFuel fuel) s msgs

/-! ## SuspendPreprocessor stream interception
(src/nabs/preprocessors.py, lines 13-135)

`__init__` (lines 31-42) accepts `pre_plan`, `post_plan` and `follow_plan`
but stores none of them: the only fields assigned are the signal, the
command set, the sleep, the two flags, the resolved `_ok_future`, the lock
and the subscription id. `_msg_proc` (lines 117-135) substitutes, for a
watched message seen while `_ok_future` is unresolved and no handling is
active, the generator `new_gen`, which yields exactly a `wait_for` message
and then the original message. -/

/-- The stream-side state of a `SuspendPreprocessor`: whether `_ok_future`
is resolved and whether a suspension handling is active. -/
structure SPState where
  okDone : Bool
  suspendActive : Bool
deriving DecidableEq, Repr

/-- The fields `SuspendPreprocessor.__init__` actually stores (lines
33-42): the command set, the sleep, and the flags; `_ok_future` starts
resolved. -/
structure SuspendPreprocessorData where
  cmd : Option (List String)
  sleep : Rat
  state : SPState
deriving DecidableEq, Repr

/-- `SuspendPreprocessor.__init__` (lines 31-42). The three sub-plan
arguments are accepted — mirroring the Python signature — and discarded,
exactly as the constructor body does. -/
def suspendPreprocessorInit (commands : Option (List String)) (sleep : Rat)
    (_prePlan _postPlan _followPlan : List Msg) : SuspendPreprocessorData :=
  { cmd := commands, sleep := sleep,
    state := { okDone := true, suspendActive := false } }

/-- The suspend branch of `_update` (lines 81-86) as seen by the stream
state: a suspend-triggering value replaces `_ok_future` by a fresh
unresolved future. -/
def spSuspendUpdate (s : SPState) : SPState :=
  { s with okDone := false }

/-- Does a message match the watched command set (line 123)? -/
def spWatched (cmd : Option (List String)) (m : Msg) : Bool :=
  match cmd with
  | none => true
  | some cs => m.command ∈ cs

/-- The `wait_for` message yielded by `new_gen` (line 129). -/
def spWaitMsg : Msg := { mid := 0, command := "wait_for" }

/-- A `null` message: what the default `pre_plan`/`post_plan`/`follow_plan`
(the `null` plan stub) would emit if the preprocessor ran them. -/
def spNullMsg : Msg := { mid := 0, command := "null" }

/-- `SuspendPreprocessor._msg_proc` (lines 117-135). For a watched message
while `_ok_future` is unresolved and handling is inactive, substitute the
emissions of `new_gen` (lines 127-132): a `wait_for` on the cell, then the
original message; the state afterwards has handling inactive again and the
cell resolved (the wait completed). Everything else passes untouched. -/
def spMsgProc (cmd : Option (List String)) (s : SPState) (m : Msg) :
    Option (List Msg) × SPState :=
  if spWatched cmd m && !s.okDone && !s.suspendActive then
    (some [spWaitMsg, m], { okDone := true, suspendActive := false })
  else (none, s)

/-- The wrapped stream: apply the stream-mutation contract with `spMsgProc`
as the decision function — passed messages are emitted in place, a
substituted message is replaced by its sub-stream. -/
def spRun (cmd : Option (List String)) : SPState → List Msg → List Msg × SPState
  | s, [] => ([], s)
  | s, m :: rest =>
    match spMsgProc cmd s m with
    | (none, s1) =>
      let r := spRun cmd s1 rest
      (m :: r.1, r.2)
    | (some sub, s1) =>
      let r := spRun cmd s1 rest
      (sub ++ r.1, r.2)

/-! ## CallbackCounterFuture (src/nabs/callbacks.py) -/

/-- The state of a `CallbackCounterFuture`: the total event count, the
target, the per-detector tallies when detectors were configured, and the
owned future — `none` before `ensure_future` creates it, `some none` while
pending, `some (some r)` once resolved with result `r`. -/
structure CCFState where
  value : Nat
  maxCount : Nat
  dets : Option (List (String × Nat))
  future : Option (Option String)
deriving DecidableEq, Repr

/-- `CallbackCounterFuture.__init__` (lines 23-30). -/
def ccfInit (maxCount : Nat) (detectors : Option (List String)) : CCFState :=
  { value := 0, maxCount := maxCount,
    dets := detectors.map (fun ds => ds.map (fun d => (d, 0))),
    future := none }

/-- The result string of the categorized resolution (lines 50-51). -/
def ccfResolveAll (n : Nat) : String :=
  "reached " ++ toString n ++ " for all dets"

/-- The result string of the uncategorized resolution (line 38). -/
def ccfResolveScalar (n : Nat) : String :=
  "reached " ++ toString n

/-- `CallbackCounterFuture.ensure_future` (lines 53-56). -/
def ccfEnsureFuture (s : CCFState) : CCFState :=
  match s.future with
  | none => { s with future := some none }
  | some _ => s

/-- The tally update of lines 46-48: every tracked detector whose name
appears in the event data is incremented. -/
def ccfIncrement (dets : List (String × Nat)) (data : List String) :
    List (String × Nat) :=
  dets.map (fun p => if p.1 ∈ data then (p.1, p.2 + 1) else p)

/-- `CallbackCounterFuture.__call__` (lines 32-51). The document is `none`
for a non-event document (no extractable data, the KeyError branch) and
`some data` for an event carrying the listed data keys. The count always
increments; resolution only happens while the future is not done: scalar
mode resolves once the count reaches the target, categorized mode
increments the tallies present in the data and resolves when every tally
has reached the target. -/
def ccfCall (s : CCFState) (doc : Option (List String)) : CCFState :=
  let s1 := ccfEnsureFuture { s with value := s.value + 1 }
  if s1.future = some none then
    match s1.dets with
    | none =>
      if s1.maxCount ≤ s1.value then
        { s1 with future := some (some (ccfResolveScalar s1.value)) }
      else s1
    | some dets =>
      match doc with
      | none => s1
      | some data =>
        let dets2 := ccfIncrement dets data
        if dets2.all (fun p => s1.maxCount ≤ p.2) then
          { s1 with dets := some dets2,
                    future := some (some (ccfResolveAll s1.maxCount)) }
        else { s1 with dets := some dets2 }
  else s1

/-! ## Condition watcher concurrency
(src/nabs/preprocessors.py, lines 66-100)

An interleaving semantics for the notification callback `_update` and the
hold-down worker `_release_thread`. `_update` runs atomically (it holds the
reentrant lock for its whole body). A worker is spawned by the resume
branch; it then, on its own thread and without the lock, enters
`Event.wait(timeout=sleep)` and either returns true — the suspend event
was set at entry or became set during the wait, so the worker cancels — or
times out with the event never set, after which `set_result` on the
current `_ok_future` is a separate later step that any number of other
actions can precede.

Rendezvous Cells are numbered generations: generation 0 is the resolved
future installed by `__init__`; each suspend installs a fresh unresolved
generation. `resolveFire` resolves whatever generation is current at that
moment, and resolving an already-resolved future is the asyncio
InvalidStateError, recorded in `err`. -/

/-- The phase of one hold-down worker. -/
inductive WPhase
  | notStarted
  | waiting
  | pendingResolve
  | doneCancelled
  | doneResolved
  | doneError
deriving DecidableEq, Repr

/-- Lookup of a worker phase by spawn index. -/
def wGet : List WPhase → Nat → Option WPhase
  | [], _ => none
  | p :: _, 0 => some p
  | _ :: ps, n + 1 => wGet ps n

/-- Replacement of a worker phase by spawn index. -/
def wSet : List WPhase → Nat → WPhase → List WPhase
  | [], _, _ => []
  | _ :: ps, 0, q => q :: ps
  | p :: ps, n + 1, q => p :: wSet ps n q

/-- The shared state of one watcher: the suspend event flag, the current
future generation, the list of resolved generations, whether a worker hit
InvalidStateError, and the spawned workers. -/
structure CWState where
  ev : Bool
  gen : Nat
  resolved : List Nat
  err : Bool
  workers : List WPhase
deriving DecidableEq, Repr

/-- The state right after `__init__` (lines 36-42): event clear, the
initial future already resolved, no workers. -/
def cwInit : CWState :=
  { ev := false, gen := 0, resolved := [0], err := false, workers := [] }

/-- Atomic actions of the two execution contexts. `update b` is one
delivery of `_update` with `b = should_suspend(value)` (and, by the default
`should_resume`, resume-qualifying iff `b` is false). The worker actions
split `_release_thread` at its true interleaving points. -/
inductive CWAct
  | update (suspendTrig : Bool)
  | enterWait (w : Nat)
  | timeoutFire (w : Nat)
  | resolveFire (w : Nat)
deriving DecidableEq, Repr

/-- One atomic step. `update` follows `_update` (lines 66-86): suspended
and resume-qualifying clears the event and spawns a worker; running and
suspend-qualifying installs a fresh unresolved generation and sets the
event, which cancels every worker currently blocked in its wait (they are
notified and their wait returns true); all other combinations are no-ops.
`enterWait` observes the flag at wait entry. `timeoutFire` is a wait that
elapsed with the event never set. `resolveFire` is the subsequent
`set_result` on whatever `_ok_future` is current at that moment. -/
def cwStep (s : CWState) : CWAct → CWState
  | CWAct.update b =>
    if s.ev then
      if b then s
      else { s with ev := false, workers := s.workers ++ [WPhase.notStarted] }
    else
      if b then
        { s with ev := true, gen := s.gen + 1,
                 workers := s.workers.map
                   (fun p => if p = WPhase.waiting then WPhase.doneCancelled else p) }
      else s
  | CWAct.enterWait w =>
    match wGet s.workers w with
    | some WPhase.notStarted =>
      if s.ev then { s with workers := wSet s.workers w WPhase.doneCancelled }
      else { s with workers := wSet s.workers w WPhase.waiting }
    | _ => s
  | CWAct.timeoutFire w =>
    match wGet s.workers w with
    | some WPhase.waiting =>
      { s with workers := wSet s.workers w WPhase.pendingResolve }
    | _ => s
  | CWAct.resolveFire w =>
    match wGet s.workers w with
    | some WPhase.pendingResolve =>
      if s.gen ∈ s.resolved then
        { s with err := true, workers := wSet s.workers w WPhase.doneError }
      else
        { s with resolved := s.gen :: s.resolved,
                 workers := wSet s.workers w WPhase.doneResolved }
    | _ => s

/-- Run an interleaving from the initial state. -/
def cwRun (acts : List CWAct) : CWState :=
  acts.foldl cwStep cwInit

/-- The number of cells created so far that are still unresolved. -/
def cwUnresolvedCells (s : CWState) : Nat :=
  ((List.range (s.gen + 1)).filter (fun g => !(s.resolved.contains g))).length

/-! ## Concrete states used by the witnesses -/

/-- A categorized counter with target 3 at tallies a = 3, b = 2, pending. -/
def ccfAlmostDone : CCFState :=
  { value := 5, maxCount := 3, dets := some [("a", 3), ("b", 2)], future := some none }

/-- A categorized counter with target 3 at tallies a = 3, b = 1, pending. -/
def ccfEarlier : CCFState :=
  { value := 4, maxCount := 3, dets := some [("a", 3), ("b", 1)], future := some none }

/-- A categorized counter with target 3, already resolved. -/
def ccfAfterDone : CCFState :=
  { value := 6, maxCount := 3, dets := some [("a", 4), ("b", 3)],
    future := some (some (ccfResolveAll 3)) }

/-! ## Theorems -/

/-- C1: the claim says that for a watched instruction arriving while a
suspension is unresolved and no handling is active, the wrapped stream
emits all of prePlan, then the block on the Rendezvous Cell, then
postPlan, then followPlan, then the original instruction. The code does
not: `__init__` discards the three sub-plans and `new_gen` emits only the
`wait_for` block and the original message. Evaluated at the failing input
— a watcher over trigger/create/read with the default sub-plans (each the
`null` plan, as the repository test suite expects at
src/tests/test_preprocessors.py lines 41-50) and one watched `read` during
an unresolved suspension — the emission is `[wait_for, read]`, not the
claimed `[null, wait_for, null, null, read]`, whatever sub-plans were
passed to the constructor. -/
theorem suspend_msg_proc_emits_no_subplans
    (prePlan postPlan followPlan : List Msg) (sleep : Rat) :
    (spRun (suspendPreprocessorInit (some ["trigger", "create", "read"]) sleep
        prePlan postPlan followPlan).cmd
      (spSuspendUpdate (suspendPreprocessorInit (some ["trigger", "create", "read"]) sleep
        prePlan postPlan followPlan).state)
      [{ mid := 1, command := "read" }]).1 =
      [spWaitMsg, { mid := 1, command := "read" }] ∧
    [spWaitMsg, { mid := 1, command := "read" }] ≠
      [spNullMsg, spWaitMsg, spNullMsg, spNullMsg, { mid := 1, command := "read" }] := by
  constructor
  · rfl
  · decide

/-- C2: if no condition update ever makes `should_suspend` true — so
`_ok_future` stays resolved throughout, as it is from `__init__` on — then
the wrapped stream is exactly the input stream, in order, with no
substituted or inserted instructions, for every command set. -/
theorem wrap_identity_without_suspension (cmd : Option (List String)) :
    ∀ (msgs : List Msg) (s : SPState), s.okDone = true →
      spRun cmd s msgs = (msgs, s) := by
  intro msgs
  induction msgs with
  | nil => intro s _; rfl
  | cons m rest ih =>
    intro s h
    simp only [spRun, spMsgProc, h, Bool.not_true, Bool.and_false, Bool.false_and,
      if_neg, Bool.false_eq_true, not_false_eq_true, ih s h]

/-- Witness for C2 at a concrete stream and the freshly constructed
watcher state. -/
theorem wrap_identity_without_suspension_witness :
    ((suspendPreprocessorInit none 0 [] [] []).state.okDone = true) ∧
    spRun none (suspendPreprocessorInit none 0 [] [] []).state
        [⟨1, "read"⟩, ⟨2, "sleep"⟩] =
      ([⟨1, "read"⟩, ⟨2, "sleep"⟩], (suspendPreprocessorInit none 0 [] [] []).state) :=
  ⟨rfl, wrap_identity_without_suspension none [⟨1, "read"⟩, ⟨2, "sleep"⟩]
    (suspendPreprocessorInit none 0 [] [] []).state rfl⟩

/-- A trigger/create/read command is not `save`. -/
theorem tcr_ne_save {m : Msg} (h : m.command ∈ tcrCommands) : ¬ m.command = "save" := by
  intro hs
  rw [hs] at h
  simp [tcrCommands] at h

/-- Replay pass-through: a list of trigger/create/read messages processed
while the ok signal keeps reading true is emitted unchanged, in order,
with every message appended to the cache and one schedule entry consumed
per message. -/
theorem runEGList_pass (nested : EGState → List Msg → Option (List Msg × EGState)) :
    ∀ (L : List Msg) (s : EGState),
      (∀ x ∈ L, x.command ∈ tcrCommands) →
      (∀ b ∈ s.okSeq.take L.length, b = true) →
      runEGList nested s L =
        some (L, { msgCache := s.msgCache ++ L, okSeq := s.okSeq.drop L.length }) := by
  intro L
  induction L with
  | nil =>
    intro s _ _
    simp [runEGList]
  | cons x xs ih =>
    intro s hall hok
    have hx : x.command ∈ tcrCommands := hall x (by simp)
    have hhead : s.okSeq.headD true = true := by
      cases hs : s.okSeq with
      | nil => rfl
      | cons b t =>
        have : b ∈ s.okSeq.take (x :: xs).length := by
          rw [hs]
          simp [List.take]
        simpa using hok b this
    have htail : ∀ b ∈ s.okSeq.tail.take xs.length, b = true := by
      intro b hb
      apply hok
      cases hs : s.okSeq with
      | nil => rw [hs] at hb; simp at hb
      | cons c t =>
        rw [hs] at hb
        simp only [List.tail_cons] at hb
        simp [List.take_succ_cons, hb]
    have hrec := ih { s with msgCache := s.msgCache ++ [x], okSeq := s.okSeq.tail }
      (fun y hy => hall y (by simp [hy])) htail
    simp only [runEGList, egMsgProc, tcr_ne_save hx, if_false, hx, if_pos, egGetOk,
      hhead, if_true, hrec]
    cases hs : s.okSeq with
    | nil => simp
    | cons c t => simp [hs]

/-- C3: when a trigger/create/read message `m` arrives with the Replay
Buffer holding `B` and the ok signal reading false, the wrapped stream
substitutes the `wait_and_retry` sub-stream: first, its output is exactly
a `drop`, the block on the cell, and then a recursive run of the same
interception function over `B ++ [m]` from an empty cache — the replayed
instructions are routed back through `msg_proc`, so a reading that goes
bad mid-replay re-triggers suspension one fuel level deeper; second, when
the ok signal reads true for the whole replay, that recursive run re-emits
`B ++ [m]` verbatim — the same messages, in original order. -/
theorem replay_buffer_reemitted_through_msg_proc
    (fuel : Nat) (s : EGState) (B : List Msg) (m : Msg) (rest : List Msg)
    (hcache : s.msgCache = B)
    (hm : m.command ∈ tcrCommands)
    (hbad : s.okSeq.headD true = false) :
    (runEGFuel (fuel + 1) s (m :: rest) =
      (match runEGFuel fuel { msgCache := [], okSeq := s.okSeq.tail } (B ++ [m]) with
       | none => none
       | some (replayOut, s3) =>
         match runEGFuel (fuel + 1) s3 rest with
         | none => none
         | some (out, s4) => some (egDropMsg :: egWaitMsg :: (replayOut ++ out), s4))) ∧
    ((∀ x ∈ B, x.command ∈ tcrCommands) →
     (∀ b ∈ s.okSeq.tail.take (B.length + 1), b = true) →
     runEGFuel fuel { msgCache := [], okSeq := s.okSeq.tail } (B ++ [m]) =
       some (B ++ [m],
         { msgCache := B ++ [m], okSeq := s.okSeq.tail.drop (B.length + 1) })) := by
  constructor
  · show runEGList (runEGFuel fuel) s (m :: rest) = _
    simp only [runEGList, egMsgProc, tcr_ne_save hm, if_false, hm, if_pos, egGetOk,
      hbad, Bool.false_eq_true, if_neg, not_false_eq_true, hcache]
    rfl
  · intro hall hok
    have hlen : (B ++ [m]).length = B.length + 1 := by simp
    have hall2 : ∀ x ∈ B ++ [m], x.command ∈ tcrCommands := by
      intro x hx
      rcases List.mem_append.mp hx with h | h
      · exact hall x h
      · simp at h; rw [h]; exact hm
    cases fuel with
    | zero =>
      have := runEGList_pass (fun _ _ => none) (B ++ [m])
        { msgCache := [], okSeq := s.okSeq.tail } hall2 (by rw [hlen] at *; exact hok)
      simpa [runEGFuel, hlen] using this
    | succ f =>
      have := runEGList_pass (runEGFuel f) (B ++ [m])
        { msgCache := [], okSeq := s.okSeq.tail } hall2 (by rw [hlen] at *; exact hok)
      simpa [runEGFuel, hlen] using this

/-- Witness for C3: buffer `[trigger 1, create 2]`, suspension at `read 3`,
replay all ok — the run emits drop, the block, then the three buffered
messages verbatim and in order. -/
theorem replay_buffer_reemitted_through_msg_proc_witness :
    (([false, true, true, true] : List Bool).headD true = false) ∧
    ((⟨3, "read"⟩ : Msg).command ∈ tcrCommands) ∧
    runEGFuel 1
        { msgCache := [⟨1, "trigger"⟩, ⟨2, "create"⟩], okSeq := [false, true, true, true] }
        [⟨3, "read"⟩] =
      some ([egDropMsg, egWaitMsg, ⟨1, "trigger"⟩, ⟨2, "create"⟩, ⟨3, "read"⟩],
        { msgCache := [⟨1, "trigger"⟩, ⟨2, "create"⟩, ⟨3, "read"⟩], okSeq := [] }) := by
  refine ⟨rfl, by decide, ?_⟩
  obtain ⟨h1, h2⟩ := replay_buffer_reemitted_through_msg_proc 0
    { msgCache := [⟨1, "trigger"⟩, ⟨2, "create"⟩], okSeq := [false, true, true, true] }
    [⟨1, "trigger"⟩, ⟨2, "create"⟩] ⟨3, "read"⟩ [] rfl (by decide) rfl
  rw [h1, h2 (by decide) (by decide)]
  decide

/-- C4, counterexample: the claim says a `drop` instruction clears the
Replay Buffer, so nothing seen before a drop marker is replayed by a later
suspension. On the code, `msg_proc` clears the cache only on `save`:
processing `drop 2` leaves `read 1` in the cache, and the suspension at
`read 3` replays `read 1` — an instruction seen before the drop marker —
after the block. -/
theorem drop_does_not_clear_replay_buffer :
    ((egMsgProc { msgCache := [⟨1, "read"⟩], okSeq := [] } ⟨2, "drop"⟩).2.msgCache ≠ []) ∧
    runEGFuel 1 { msgCache := [], okSeq := [true, false, true, true] }
        [⟨1, "read"⟩, ⟨2, "drop"⟩, ⟨3, "read"⟩] =
      some ([⟨1, "read"⟩, ⟨2, "drop"⟩, egDropMsg, egWaitMsg, ⟨1, "read"⟩, ⟨3, "read"⟩],
        { msgCache := [⟨1, "read"⟩, ⟨3, "read"⟩], okSeq := [] }) := by
  constructor
  · decide
  · decide

/-- C4, amended: processing a `save` instruction clears the Replay Buffer,
while processing a `drop` instruction passes it through with the state —
in particular the buffer — unchanged; only `save` is a commit boundary for
replay. -/
theorem save_clears_buffer_drop_is_passthrough (s : EGState) (mid1 mid2 : Nat) :
    (egMsgProc s ⟨mid1, "save"⟩).2.msgCache = [] ∧
    egMsgProc s ⟨mid2, "drop"⟩ = (EGDecision.pass, s) := by
  constructor
  · simp [egMsgProc]
  · simp [egMsgProc, tcrCommands]

/-- C5: the claim says a bundle whose buffered value trips a configured
per-key predicate has its `save` replaced by `drop`. The code instead
subscripts the filter — `filt[value]` on line 235 where its own docstring
promises an `is_bad_value(value)` function — so at the failing input
(filters `x` mapped to `v < 0`, buffered `x = -1`, duration within bound)
the save handler raises TypeError rather than dropping. The duration
branch, checked first, does behave as claimed: with `max_dt` 10 and a
bundle spanning 15, `save` becomes `drop` without consulting the filters. -/
theorem filter_save_subscript_raises_type_error :
    (dwRun (dwInit (some [("x", PyVal.vfun (fun v => decide (v < 0)))]) (some 100))
      [DWMsg.create, DWMsg.read [("x", PyVal.vnum (-1))] 0 1, DWMsg.save] =
      Except.error PyErr.typeError) ∧
    (dwRun (dwInit none (some 10))
      [DWMsg.create, DWMsg.read [] 0 15, DWMsg.save] =
      Except.ok [Terminal.tdrop]) := by
  constructor
  · rfl
  · rfl

/-- Reading another index is unaffected by a worker phase replacement. -/
theorem wGet_wSet_ne : ∀ (ws : List WPhase) (w v : Nat) (p : WPhase), v ≠ w →
    wGet (wSet ws w p) v = wGet ws v := by
  intro ws
  induction ws with
  | nil => intro w v p _; rfl
  | cons q qs ih =>
    intro w v p hne
    cases w with
    | zero =>
      cases v with
      | zero => exact absurd rfl hne
      | succ v2 => rfl
    | succ w2 =>
      cases v with
      | zero => rfl
      | succ v2 => exact ih w2 v2 p (fun h => hne (by rw [h]))

/-- Worker lookup commutes with a phase map. -/
theorem wGet_map (f : WPhase → WPhase) : ∀ (ws : List WPhase) (v : Nat),
    wGet (ws.map f) v = (wGet ws v).map f := by
  intro ws
  induction ws with
  | nil => intro v; rfl
  | cons q qs ih =>
    intro v
    cases v with
    | zero => rfl
    | succ v2 => exact ih v2

/-- Spawning a new worker leaves existing lookups intact. -/
theorem wGet_append_left : ∀ (ws l : List WPhase) (v : Nat) (x : WPhase),
    wGet ws v = some x → wGet (ws ++ l) v = some x := by
  intro ws
  induction ws with
  | nil => intro l v x h; simp [wGet] at h
  | cons q qs ih =>
    intro l v x h
    cases v with
    | zero => exact h
    | succ v2 => exact ih l v2 x h

/-- Replacing an existing phase is seen at that index. -/
theorem wGet_wSet_self : ∀ (ws : List WPhase) (w : Nat) (p q : WPhase),
    wGet ws w = some q → wGet (wSet ws w p) w = some p := by
  intro ws
  induction ws with
  | nil => intro w p q h; simp [wGet] at h
  | cons r rs ih =>
    intro w p q h
    cases w with
    | zero => rfl
    | succ w2 => exact ih w2 p q h

/-- A cancelled worker stays cancelled under a different index. -/
theorem wGet_wSet_other (ws : List WPhase) (w2 w : Nat) (p : WPhase)
    (h : wGet ws w = some WPhase.doneCancelled) (hne : ¬ w2 = w) :
    wGet (wSet ws w2 p) w = some WPhase.doneCancelled := by
  rw [wGet_wSet_ne _ _ _ _ (Ne.symm hne)]
  exact h

/-- Cancellation is absorbing: no action moves a worker out of the
doneCancelled phase. -/
theorem cwStep_cancelled_absorb (s : CWState) (a : CWAct) (w : Nat)
    (h : wGet s.workers w = some WPhase.doneCancelled) :
    wGet (cwStep s a).workers w = some WPhase.doneCancelled := by
  cases a with
  | update b =>
    by_cases hev : s.ev
    · cases b with
      | true => simpa [cwStep, hev]
      | false =>
        simp only [cwStep, hev, if_true, Bool.false_eq_true, if_neg, not_false_eq_true]
        exact wGet_append_left _ _ _ _ h
    · cases b with
      | true =>
        simp only [cwStep, hev, if_false, Bool.false_eq_true, not_false_eq_true, if_true]
        rw [wGet_map _ _ _, h]
        rfl
      | false => simpa [cwStep, hev]
  | enterWait w2 =>
    by_cases hww : w2 = w
    · subst hww
      simp [cwStep, h]
    · simp only [cwStep]
      cases hg : wGet s.workers w2 with
      | none => exact h
      | some p =>
        cases p with
        | notStarted =>
          by_cases hev : s.ev <;> simp only [hev, if_true, Bool.false_eq_true, if_neg,
            not_false_eq_true] <;> exact wGet_wSet_other _ _ _ _ h hww
        | waiting => exact h
        | pendingResolve => exact h
        | doneCancelled => exact h
        | doneResolved => exact h
        | doneError => exact h
  | timeoutFire w2 =>
    by_cases hww : w2 = w
    · subst hww
      simp [cwStep, h]
    · simp only [cwStep]
      cases hg : wGet s.workers w2 with
      | none => exact h
      | some p =>
        cases p with
        | waiting => exact wGet_wSet_other _ _ _ _ h hww
        | notStarted => exact h
        | pendingResolve => exact h
        | doneCancelled => exact h
        | doneResolved => exact h
        | doneError => exact h
  | resolveFire w2 =>
    by_cases hww : w2 = w
    · subst hww
      simp [cwStep, h]
    · simp only [cwStep]
      cases hg : wGet s.workers w2 with
      | none => exact h
      | some p =>
        cases p with
        | pendingResolve =>
          by_cases hres : s.gen ∈ s.resolved <;>
            simp only [hres, if_true, if_neg, not_false_eq_true] <;>
            exact wGet_wSet_other _ _ _ _ h hww
        | notStarted => exact h
        | waiting => exact h
        | doneCancelled => exact h
        | doneResolved => exact h
        | doneError => exact h

/-- Cancellation is absorbing along any continuation of the interleaving. -/
theorem foldl_cancelled_absorb : ∀ (acts : List CWAct) (s : CWState) (w : Nat),
    wGet s.workers w = some WPhase.doneCancelled →
    wGet (acts.foldl cwStep s).workers w = some WPhase.doneCancelled := by
  intro acts
  induction acts with
  | nil => intro s w h; exact h
  | cons a rest ih =>
    intro s w h
    exact ih (cwStep s a) w (cwStep_cancelled_absorb s a w h)

/-- Reachable-state invariant: while the suspend event is set, no worker is
blocked in its wait — a suspend-triggering update cancels every waiting
worker as it sets the event, and a worker entering its wait while the
event is set is cancelled at entry. -/
theorem cwNoWaitingWhenEv : ∀ (acts : List CWAct),
    (cwRun acts).ev = true → ∀ w, wGet (cwRun acts).workers w ≠ some WPhase.waiting := by
  suffices hstep : ∀ (acts : List CWAct) (s : CWState),
      (s.ev = true → ∀ w, wGet s.workers w ≠ some WPhase.waiting) →
      ((acts.foldl cwStep s).ev = true →
        ∀ w, wGet (acts.foldl cwStep s).workers w ≠ some WPhase.waiting) by
    intro acts
    exact hstep acts cwInit (by intro _ w; cases w <;> simp [cwInit, wGet])
  intro acts
  induction acts with
  | nil => intro s h; exact h
  | cons a rest ih =>
    intro s hs
    apply ih
    cases a with
    | update b =>
      by_cases hev : s.ev
      · cases b with
        | true => simp [cwStep, hev] at hs ⊢; exact hs
        | false => simp [cwStep, hev]
      · cases b with
        | true =>
          simp only [cwStep, hev, Bool.false_eq_true, if_false, not_false_eq_true, if_true]
          intro _ w
          rw [wGet_map]
          cases hg : wGet s.workers w with
          | none => simp
          | some p => cases p <;> simp
        | false =>
          simp only [cwStep, hev, Bool.false_eq_true, if_false]
          intro hc
          exact absurd hc (by simp [hev])
    | enterWait w2 =>
      simp only [cwStep]
      cases hg : wGet s.workers w2 with
      | none => exact hs
      | some p =>
        cases p with
        | notStarted =>
          by_cases hev : s.ev
          · simp only [hev, if_true]
            intro _ w
            by_cases hww : w = w2
            · subst hww
              rw [wGet_wSet_self _ _ _ _ hg]
              simp
            · rw [wGet_wSet_ne _ _ _ _ hww]
              exact hs hev w
          · simp [hev]
        | waiting => exact hs
        | pendingResolve => exact hs
        | doneCancelled => exact hs
        | doneResolved => exact hs
        | doneError => exact hs
    | timeoutFire w2 =>
      simp only [cwStep]
      cases hg : wGet s.workers w2 with
      | none => exact hs
      | some p =>
        cases p with
        | waiting =>
          intro hev w
          by_cases hww : w = w2
          · subst hww
            rw [wGet_wSet_self _ _ _ _ hg]
            simp
          · rw [wGet_wSet_ne _ _ _ _ hww]
            exact hs hev w
        | notStarted => exact hs
        | pendingResolve => exact hs
        | doneCancelled => exact hs
        | doneResolved => exact hs
        | doneError => exact hs
    | resolveFire w2 =>
      simp only [cwStep]
      cases hg : wGet s.workers w2 with
      | none => exact hs
      | some p =>
        cases p with
        | pendingResolve =>
          by_cases hres : s.gen ∈ s.resolved <;>
            simp only [hres, if_true, if_neg, not_false_eq_true] <;>
            (intro hev w
             by_cases hww : w = w2
             · subst hww
               rw [wGet_wSet_self _ _ _ _ hg]
               simp
             · rw [wGet_wSet_ne _ _ _ _ hww]
               exact hs hev w)
        | notStarted => exact hs
        | waiting => exact hs
        | doneCancelled => exact hs
        | doneResolved => exact hs
        | doneError => exact hs

/-- C6, counterexample: the claim says a suspend-triggering update arriving
while the hold-down timer worker is still pending means that worker never
resolves the Rendezvous Cell. In the interleaving below the worker of the
first cycle times out, the suspend-triggering update then arrives — the
worker is still pending resolution — and the worker nonetheless resolves:
it resolves generation 2, the fresh unresolved cell of the new suspension,
while the watcher is suspended. The code checks the suspend state only
through the return value of its wait; it does not re-check before
`set_result` (lines 94-100). -/
theorem stale_timeout_worker_resolves_fresh_cell :
    wGet (cwRun [CWAct.update true, CWAct.update false, CWAct.enterWait 0,
        CWAct.timeoutFire 0]).workers 0 = some WPhase.pendingResolve ∧
    (cwRun [CWAct.update true, CWAct.update false, CWAct.enterWait 0,
        CWAct.timeoutFire 0, CWAct.update true, CWAct.resolveFire 0]).resolved = [2, 0] ∧
    wGet (cwRun [CWAct.update true, CWAct.update false, CWAct.enterWait 0,
        CWAct.timeoutFire 0, CWAct.update true, CWAct.resolveFire 0]).workers 0 =
      some WPhase.doneResolved ∧
    (cwRun [CWAct.update true, CWAct.update false, CWAct.enterWait 0,
        CWAct.timeoutFire 0, CWAct.update true, CWAct.resolveFire 0]).ev = true := by
  refine ⟨by decide, by decide, by decide, by decide⟩

/-- C6, amended: a suspend-triggering update that arrives while the worker
is still blocked inside its wait cancels that worker — the wait returns
true — and the worker then never resolves any cell, in every continuation
of the interleaving. Only an update that falls between the timeout of the
wait and the `set_result` step escapes the check. -/
theorem suspend_during_wait_cancels_worker (pre post : List CWAct) (w : Nat)
    (h : wGet (cwRun pre).workers w = some WPhase.waiting) :
    wGet (cwRun (pre ++ CWAct.update true :: post)).workers w =
      some WPhase.doneCancelled := by
  have hev : (cwRun pre).ev = false := by
    by_cases he : (cwRun pre).ev
    · exact absurd h (cwNoWaitingWhenEv pre he w)
    · simpa using he
  have hrun : cwRun (pre ++ CWAct.update true :: post) =
      post.foldl cwStep (cwStep (cwRun pre) (CWAct.update true)) := by
    simp [cwRun, List.foldl_append]
  rw [hrun]
  apply foldl_cancelled_absorb
  simp only [cwStep, hev, Bool.false_eq_true, if_false, not_false_eq_true, if_true]
  rw [wGet_map, h]
  rfl

/-- Witness for C6 at the concrete interleaving suspend, resume, worker
enters its wait, suspend-triggering update, then the worker attempts
timeout and resolution: the worker ends cancelled. -/
theorem suspend_during_wait_cancels_worker_witness :
    wGet (cwRun [CWAct.update true, CWAct.update false, CWAct.enterWait 0]).workers 0 =
        some WPhase.waiting ∧
    wGet (cwRun ([CWAct.update true, CWAct.update false, CWAct.enterWait 0] ++
        CWAct.update true :: [CWAct.timeoutFire 0, CWAct.resolveFire 0])).workers 0 =
      some WPhase.doneCancelled :=
  ⟨by decide,
   suspend_during_wait_cancels_worker
     [CWAct.update true, CWAct.update false, CWAct.enterWait 0]
     [CWAct.timeoutFire 0, CWAct.resolveFire 0] 0 (by decide)⟩

/-- Resolution never duplicates an entry in the resolved list: a worker
finding the current cell already resolved errors instead of resolving. -/
theorem cwStep_resolved_nodup (s : CWState) (a : CWAct)
    (h : s.resolved.Nodup) : (cwStep s a).resolved.Nodup := by
  cases a with
  | update b =>
    by_cases hev : s.ev <;> cases b <;> simp [cwStep, hev, h]
  | enterWait w2 =>
    simp only [cwStep]
    cases hg : wGet s.workers w2 with
    | none => exact h
    | some p =>
      cases p with
      | notStarted => by_cases hev : s.ev <;>
          simp only [hev, if_true, Bool.false_eq_true, if_neg, not_false_eq_true] <;> exact h
      | waiting => exact h
      | pendingResolve => exact h
      | doneCancelled => exact h
      | doneResolved => exact h
      | doneError => exact h
  | timeoutFire w2 =>
    simp only [cwStep]
    cases hg : wGet s.workers w2 with
    | none => exact h
    | some p => cases p <;> exact h
  | resolveFire w2 =>
    simp only [cwStep]
    cases hg : wGet s.workers w2 with
    | none => exact h
    | some p =>
      cases p with
      | pendingResolve =>
        by_cases hres : s.gen ∈ s.resolved
        · simp [hres, h]
        · simp [hres, h, List.nodup_cons]
      | notStarted => exact h
      | waiting => exact h
      | doneCancelled => exact h
      | doneResolved => exact h
      | doneError => exact h

/-- C8, counterexample: the claim says at most one outstanding unresolved
cell exists per watcher at any time. After the update sequence suspend,
resume, suspend — a new suspension beginning while the first cycle is
still in its hold-down — generations 1 and 2 are both unresolved: two
unresolved cells coexist, and nothing will ever resolve generation 1. -/
theorem two_unresolved_cells_after_resuspension :
    cwUnresolvedCells (cwRun [CWAct.update true, CWAct.update false,
      CWAct.update true]) = 2 := by
  decide

/-- C8, amended: for every watcher state and update sequence, a
resume-qualifying notification delivered while the suspend event is clear
— in particular any second resume notification after the cell has been
resolved — is a no-op: it resolves nothing, spawns nothing and raises
nothing; and every cell is resolved at most once along any interleaving
(the resolved list never acquires a duplicate; a worker that finds the
current cell already resolved records the InvalidStateError instead).
However a new suspension that begins while an earlier cell is still
unresolved installs a fresh cell alongside it, so more than one unresolved
cell can exist. -/
theorem cell_resolved_once_and_second_resume_noop
    (s : CWState) (acts : List CWAct) (hev : s.ev = false) :
    cwStep s (CWAct.update false) = s ∧ (cwRun acts).resolved.Nodup := by
  constructor
  · simp [cwStep, hev]
  · suffices hgen : ∀ (l : List CWAct) (t : CWState), t.resolved.Nodup →
        (l.foldl cwStep t).resolved.Nodup by
      exact hgen acts cwInit (by simp [cwInit])
    intro l
    induction l with
    | nil => intro t ht; exact ht
    | cons a rest ih => intro t ht; exact ih (cwStep t a) (cwStep_resolved_nodup t a ht)

/-- Witness for C8 after a full suspend/resume: the second resume
notification changes nothing, and the resolved list of a complete
suspend/resume/timeout/resolve interleaving has no duplicates. -/
theorem cell_resolved_once_and_second_resume_noop_witness :
    (cwRun [CWAct.update true, CWAct.update false]).ev = false ∧
    cwStep (cwRun [CWAct.update true, CWAct.update false]) (CWAct.update false) =
        cwRun [CWAct.update true, CWAct.update false] ∧
    (cwRun [CWAct.update true, CWAct.update false, CWAct.enterWait 0,
        CWAct.timeoutFire 0, CWAct.resolveFire 0]).resolved.Nodup :=
  ⟨by decide,
   (cell_resolved_once_and_second_resume_noop
      (cwRun [CWAct.update true, CWAct.update false])
      [CWAct.update true, CWAct.update false, CWAct.enterWait 0,
        CWAct.timeoutFire 0, CWAct.resolveFire 0] (by decide)).1,
   (cell_resolved_once_and_second_resume_noop
      (cwRun [CWAct.update true, CWAct.update false])
      [CWAct.update true, CWAct.update false, CWAct.enterWait 0,
        CWAct.timeoutFire 0, CWAct.resolveFire 0] (by decide)).2⟩

/-- C7: one call of the categorized threshold counter, characterized
completely. A call on a resolved future leaves the resolved result
unchanged (and, the function being total, raises nothing); a non-event
document never resolves; an event document resolves exactly when, after
its increments, every tracked tally has reached the target — so the cell
resolves exactly once, on the first event call after which every tally is
at least the target. -/
theorem ccf_call_future_characterization
    (s : CCFState) (dets : List (String × Nat)) (doc : Option (List String))
    (hdets : s.dets = some dets) :
    (ccfCall s doc).future =
      (match s.future, doc with
       | some (some r), _ => some (some r)
       | some none, none => some none
       | none, none => some none
       | some none, some data =>
         if (ccfIncrement dets data).all (fun p => s.maxCount ≤ p.2)
         then some (some (ccfResolveAll s.maxCount)) else some none
       | none, some data =>
         if (ccfIncrement dets data).all (fun p => s.maxCount ≤ p.2)
         then some (some (ccfResolveAll s.maxCount)) else some none) := by
  cases hf : s.future with
  | none =>
    cases doc with
    | none => simp [ccfCall, ccfEnsureFuture, hf, hdets]
    | some data =>
      simp only [ccfCall, ccfEnsureFuture, hf, hdets]
      by_cases hall : (ccfIncrement dets data).all (fun p => s.maxCount ≤ p.2)
      · simp [hall]
      · simp [hall]
  | some inner =>
    cases inner with
    | none =>
      cases doc with
      | none => simp [ccfCall, ccfEnsureFuture, hf, hdets]
      | some data =>
        simp only [ccfCall, ccfEnsureFuture, hf, hdets]
        by_cases hall : (ccfIncrement dets data).all (fun p => s.maxCount ≤ p.2)
        · simp [hall]
        · simp [hall]
    | some r =>
      cases doc with
      | none => simp [ccfCall, ccfEnsureFuture, hf]
      | some data => simp [ccfCall, ccfEnsureFuture, hf]

/-- Witness for C7 at the claimed example, target 3 over categories a and
b: at a = 3, b = 1 an event on b leaves the cell pending; at a = 3, b = 2
an event on b resolves it; a further event after resolution leaves the
resolved result unchanged. -/
theorem ccf_call_future_characterization_witness :
    (ccfAlmostDone.dets = some [("a", 3), ("b", 2)]) ∧
    (ccfCall ccfAlmostDone (some ["b"])).future = some (some (ccfResolveAll 3)) ∧
    (ccfCall ccfEarlier (some ["b"])).future = some none ∧
    (ccfCall ccfAfterDone (some ["b"])).future = some (some (ccfResolveAll 3)) := by
  refine ⟨rfl, ?_, ?_, ?_⟩
  · rw [ccf_call_future_characterization ccfAlmostDone [("a", 3), ("b", 2)]
      (some ["b"]) rfl]
    decide
  · rw [ccf_call_future_characterization ccfEarlier [("a", 3), ("b", 1)]
      (some ["b"]) rfl]
    decide
  · rw [ccf_call_future_characterization ccfAfterDone [("a", 4), ("b", 3)]
      (some ["b"]) rfl]
    decide

/-- C9: constructing a `BeamSuspender` succeeds — the assignment in
`__init__` goes through the two-parameter setter with two arguments — but
every read of the public `averages` attribute raises TypeError, because
the property getter is declared with an extra required parameter and a
property read passes exactly one argument. -/
theorem beam_suspender_averages_read_raises :
    beamSuspenderInitAveragesAssign = Except.ok () ∧
    beamSuspenderReadAverages = Except.error PyErr.typeError := by
  constructor <;> rfl

/-- C10: for a bundle in which `save` follows `create` with no intervening
`read`, the save handler computes `last_read_time - first_read_time` with
both still None and raises TypeError instead of issuing `save` or `drop`,
for every filter and duration configuration. -/
theorem filter_save_without_reads_raises_type_error
    (filters : Option (List (String × PyVal))) (maxDt : Option Int) :
    dwRun (dwInit filters maxDt) [DWMsg.create, DWMsg.save] =
      Except.error PyErr.typeError := by
  rfl
